import Mathlib

/-
Verification of the write-back order buffer and its persistence protocol
from the wb-rest-orders repository (src/state.rs, src/main.rs, src/order.rs).

The Rust code is shallowly embedded:
- `Order` and its embedded records mirror src/order.rs (i32/i64 become Int;
  no arithmetic is performed on them anywhere in the modelled code, so
  overflow plays no role).
- `AppState.add_order` mirrors src/state.rs `AppState::add_order`: the
  VecDeque becomes a list (pop_front = head, push_back = append at the
  back); the persistence gateway is abstracted as an oracle
  `save : Nat → Order → Option E` giving the outcome of the n-th Save
  call of the drain (none = success, some e = that call fails with e),
  which mirrors `save_to_db(..).await?` returning Result<(), PostgresError>.
  The output records the final queue, the trace of Save invocations in
  call order, and the returned error, mirroring the in-place mutation of
  `last_orders` plus the Result return value.
- `save_to_db` mirrors src/state.rs `AppState::save_to_db` against an
  explicit relational store; each `client.execute` is a separate
  round-trip, so an error leaves earlier inserts committed (the pair
  `Db × Option SqlError` keeps the store state reached at the failure).
- `save_to_db_main` mirrors the inline per-order persistence block of
  src/main.rs `AppState::add_order`, whose payments INSERT carries
  ON CONFLICT(transaction_id) DO NOTHING, unlike src/state.rs.
-/

namespace Wb

/-- Mirrors `Delivery` from src/order.rs. -/
structure Delivery where
  name : String
  phone : String
  zip : String
  city : String
  address : String
  region : String
  email : String
deriving DecidableEq, Inhabited

/-- Mirrors `Payment` from src/order.rs. -/
structure Payment where
  transaction : String
  request_id : String
  currency : String
  provider : String
  amount : Int
  payment_dt : Int
  bank : String
  delivery_cost : Int
  goods_total : Int
  custom_fee : Int
deriving DecidableEq, Inhabited

/-- Mirrors `Item` from src/order.rs. -/
structure Item where
  chrt_id : Int
  track_number : String
  price : Int
  rid : String
  name : String
  sale : Int
  size : String
  total_price : Int
  nm_id : Int
  brand : String
  status : Int
deriving DecidableEq, Inhabited

/-- Mirrors `Order` from src/order.rs. -/
structure Order where
  order_uid : String
  track_number : String
  entry : String
  delivery : Delivery
  payment : Payment
  items : List Item
  locale : String
  internal_signature : String
  customer_id : String
  delivery_service : String
  shardkey : String
  sm_id : Int
  date_created : String
  oof_shard : String
deriving DecidableEq, Inhabited

/-- Outcome of one `add_order` call (and of the drain loop inside it):
the queue left in `last_orders`, the orders passed to Save in call order
(successful calls and the failing one), and the returned error, if any. -/
structure AddOut (E : Type) where
  last_orders : List Order
  calls : List Order
  err : Option E
deriving DecidableEq

/-- The drain loop of src/state.rs `add_order`
(`while let Some(order) = last_orders.pop_front` with
`save_to_db(..).await?`): pop the front, attempt Save; on failure stop
with the popped element already removed. `i` counts the Save calls made
so far so the oracle can give each call its own outcome. -/
def drainLoop {E : Type} (save : Nat → Order → Option E) :
    Nat → List Order → AddOut E
  | _, [] => ⟨[], [], none⟩
  | i, o :: rest =>
    match save i o with
    | some e => ⟨rest, [o], some e⟩
    | none =>
      let d := drainLoop save (i + 1) rest
      ⟨d.last_orders, o :: d.calls, d.err⟩

/-- Mirrors src/state.rs `AppState::add_order`: if the queue length has
reached `max_capacity`, drain it entirely through Save (the `?` aborts
on the first failure, skipping the push); otherwise, and after a fully
successful drain, push the new order at the back and return Ok. -/
def add_order {E : Type} (save : Nat → Order → Option E) (max_capacity : Nat)
    (last_orders : List Order) (last_order : Order) : AddOut E :=
  if max_capacity ≤ last_orders.length then
    let d := drainLoop save 0 last_orders
    match d.err with
    | some e => ⟨d.last_orders, d.calls, some e⟩
    | none => ⟨d.last_orders ++ [last_order], d.calls, none⟩
  else ⟨last_orders ++ [last_order], [], none⟩

/-- Mirrors src/state.rs `AppState::get_last_order`:
`last_orders.back().cloned()`. -/
def get_last_order (last_orders : List Order) : Option Order :=
  last_orders.getLast?

/-- The in-memory part of `AppState` (src/state.rs): the order queue and
the fixed capacity. The database client is modelled separately. -/
structure AppState where
  last_orders : List Order
  max_capacity : Nat
deriving DecidableEq

/-- Mirrors src/state.rs `AppState::new` restricted to its capacity
logic: `panic!("Cache size can't be zero")` on zero capacity is modelled
as `none` (no usable instance); otherwise an empty queue with the given
capacity. The database connection it also opens is external I/O and is
modelled separately. -/
def AppState.new (capacity : Nat) : Option AppState :=
  if capacity = 0 then none
  else some ⟨[], capacity⟩

/-- A whole sequence of `add_order` calls, each with its own Save
oracle, starting from a given queue; returns the final queue. -/
def runAdds {E : Type} (max_capacity : Nat) :
    List ((Nat → Order → Option E) × Order) → List Order → List Order
  | [], q => q
  | s :: rest, q =>
    runAdds max_capacity rest (add_order s.1 max_capacity q s.2).last_orders

/-- Row of the `orders` relation, the column list of the INSERT in
src/state.rs `save_to_db`. -/
structure OrdersRow where
  order_uid : String
  track_number : String
  entry : String
  locale : String
  internal_signature : String
  customer_id : String
  delivery_service : String
  shardkey : String
  sm_id : Int
  date_created : String
  oof_shard : String
deriving DecidableEq

/-- Row of the `deliveries` relation. -/
structure DeliveriesRow where
  order_uid : String
  name : String
  phone : String
  zip : String
  city : String
  address : String
  region : String
  email : String
deriving DecidableEq

/-- Row of the `payments` relation. -/
structure PaymentsRow where
  transaction_id : String
  request_id : String
  currency : String
  provider : String
  amount : Int
  payment_dt : Int
  bank : String
  delivery_cost : Int
  goods_total : Int
  custom_fee : Int
deriving DecidableEq

/-- Row of the `items` relation (column `i_size` holds `item.size`). -/
structure ItemsRow where
  order_uid : String
  chrt_id : Int
  track_number : String
  price : Int
  rid : String
  name : String
  sale : Int
  i_size : String
  total_price : Int
  nm_id : Int
  brand : String
  status : Int
deriving DecidableEq

/-- The four relations the persistence code writes, in row-arrival
order. -/
structure Db where
  orders : List OrdersRow
  deliveries : List DeliveriesRow
  payments : List PaymentsRow
  items : List ItemsRow
deriving DecidableEq

def Db.empty : Db := ⟨[], [], [], []⟩

/-- Errors a store round-trip can report: a connectivity failure, or a
unique-key violation from a plain INSERT on an existing key. -/
inductive SqlError where
  | connection
  | uniqueViolation
deriving DecidableEq

/-- The parameter tuple of the orders INSERT in src/state.rs. -/
def ordersRowOf (o : Order) : OrdersRow :=
  ⟨o.order_uid, o.track_number, o.entry, o.locale, o.internal_signature,
   o.customer_id, o.delivery_service, o.shardkey, o.sm_id,
   o.date_created, o.oof_shard⟩

/-- The parameter tuple of the deliveries INSERT in src/state.rs. -/
def deliveriesRowOf (o : Order) : DeliveriesRow :=
  ⟨o.order_uid, o.delivery.name, o.delivery.phone, o.delivery.zip,
   o.delivery.city, o.delivery.address, o.delivery.region, o.delivery.email⟩

/-- The parameter tuple of the payments INSERT in src/state.rs. -/
def paymentsRowOf (o : Order) : PaymentsRow :=
  ⟨o.payment.transaction, o.payment.request_id, o.payment.currency,
   o.payment.provider, o.payment.amount, o.payment.payment_dt,
   o.payment.bank, o.payment.delivery_cost, o.payment.goods_total,
   o.payment.custom_fee⟩

/-- The parameter tuple of the items INSERT in src/state.rs. -/
def itemsRowOf (uid : String) (it : Item) : ItemsRow :=
  ⟨uid, it.chrt_id, it.track_number, it.price, it.rid, it.name, it.sale,
   it.size, it.total_price, it.nm_id, it.brand, it.status⟩

/-- Modelled from the spec: the schema DDL is not under src/; per the
spec the `orders` relation is keyed by `order_uid`, so the plain INSERT
of src/state.rs errors when a row with that key exists and appends the
row otherwise. -/
def Db.insertOrders (db : Db) (r : OrdersRow) : Except SqlError Db :=
  if db.orders.any (fun x => x.order_uid == r.order_uid) then
    Except.error SqlError.uniqueViolation
  else
    Except.ok { db with orders := db.orders ++ [r] }

/-- Modelled from the spec: `deliveries` carries no unique key in the
spec schema, so the INSERT appends unconditionally. -/
def Db.insertDeliveries (db : Db) (r : DeliveriesRow) : Except SqlError Db :=
  Except.ok { db with deliveries := db.deliveries ++ [r] }

/-- Modelled from the spec: `payments` is keyed by `transaction_id`, so
the plain INSERT of src/state.rs (which carries no ON CONFLICT clause)
errors when a row with that transaction id exists. -/
def Db.insertPayments (db : Db) (r : PaymentsRow) : Except SqlError Db :=
  if db.payments.any (fun x => x.transaction_id == r.transaction_id) then
    Except.error SqlError.uniqueViolation
  else
    Except.ok { db with payments := db.payments ++ [r] }

/-- The payments INSERT of the inline drain in src/main.rs, which ends
in ON CONFLICT(transaction_id) DO NOTHING: an existing transaction id
makes the insert a silent no-op. -/
def Db.insertPaymentsOnConflictDoNothing (db : Db) (r : PaymentsRow) :
    Except SqlError Db :=
  if db.payments.any (fun x => x.transaction_id == r.transaction_id) then
    Except.ok db
  else
    Except.ok { db with payments := db.payments ++ [r] }

/-- Modelled from the spec: `items` carries no unique key in the spec
schema, so the INSERT appends unconditionally. -/
def Db.insertItems (db : Db) (r : ItemsRow) : Except SqlError Db :=
  Except.ok { db with items := db.items ++ [r] }

/-- One `client.execute(..).await` round-trip: call `i` may fail with a
connectivity error (decided by the oracle `connFail`), otherwise the
statement runs against the store; a store-side error leaves the store
unchanged, and in every case the store state reached so far is kept
(each round-trip commits on its own — there is no enclosing
transaction). -/
def execCall (connFail : Nat → Bool) (i : Nat) (act : Db → Except SqlError Db)
    (db : Db) : Db × Option SqlError :=
  if connFail i then (db, some SqlError.connection)
  else
    match act db with
    | Except.ok db2 => (db2, none)
    | Except.error e => (db, some e)

/-- The `for item in &order.items` loop of src/state.rs `save_to_db`
(identical in src/main.rs): one items INSERT per item, in sequence
order, stopping at the first error. `i` numbers the round-trips. -/
def insertItemsLoop (connFail : Nat → Bool) (uid : String) :
    Nat → Db → List Item → Db × Option SqlError
  | _, db, [] => (db, none)
  | i, db, it :: rest =>
    match execCall connFail i (fun d => d.insertItems (itemsRowOf uid it)) db with
    | (db2, none) => insertItemsLoop connFail uid (i + 1) db2 rest
    | (db2, some e) => (db2, some e)

/-- Mirrors src/state.rs `AppState::save_to_db`: four INSERT steps in
fixed order — orders, deliveries, payments (plain INSERT), then one
items row per item — each a separate round-trip, aborting at the first
error (`?`) with the earlier steps already committed. -/
def save_to_db (connFail : Nat → Bool) (db : Db) (o : Order) :
    Db × Option SqlError :=
  match execCall connFail 0 (fun d => d.insertOrders (ordersRowOf o)) db with
  | (db1, some e) => (db1, some e)
  | (db1, none) =>
    match execCall connFail 1 (fun d => d.insertDeliveries (deliveriesRowOf o)) db1 with
    | (db2, some e) => (db2, some e)
    | (db2, none) =>
      match execCall connFail 2 (fun d => d.insertPayments (paymentsRowOf o)) db2 with
      | (db3, some e) => (db3, some e)
      | (db3, none) => insertItemsLoop connFail o.order_uid 3 db3 o.items

/-- Mirrors the inline per-order persistence block of the drain in
src/main.rs `add_order`: same four steps in the same order, but the
payments INSERT carries ON CONFLICT(transaction_id) DO NOTHING. -/
def save_to_db_main (connFail : Nat → Bool) (db : Db) (o : Order) :
    Db × Option SqlError :=
  match execCall connFail 0 (fun d => d.insertOrders (ordersRowOf o)) db with
  | (db1, some e) => (db1, some e)
  | (db1, none) =>
    match execCall connFail 1 (fun d => d.insertDeliveries (deliveriesRowOf o)) db1 with
    | (db2, some e) => (db2, some e)
    | (db2, none) =>
      match execCall connFail 2
          (fun d => d.insertPaymentsOnConflictDoNothing (paymentsRowOf o)) db2 with
      | (db3, some e) => (db3, some e)
      | (db3, none) => insertItemsLoop connFail o.order_uid 3 db3 o.items

/-- Store state after the orders step for `o` committed on `db`. -/
def dbAfterOrders (o : Order) (db : Db) : Db :=
  { db with orders := db.orders ++ [ordersRowOf o] }

/-- Store state after the orders and deliveries steps. -/
def dbAfterDeliveries (o : Order) (db : Db) : Db :=
  { dbAfterOrders o db with
      deliveries := db.deliveries ++ [deliveriesRowOf o] }

/-- Store state after the orders, deliveries and payments steps. -/
def dbAfterPayments (o : Order) (db : Db) : Db :=
  { dbAfterDeliveries o db with
      payments := db.payments ++ [paymentsRowOf o] }

/-- A concrete order used in witnesses. -/
def orderA : Order :=
  { (default : Order) with
      order_uid := "uidA"
      payment := { (default : Payment) with transaction := "txA" } }

/-- A concrete order used in witnesses. -/
def orderB : Order :=
  { (default : Order) with
      order_uid := "uidB"
      payment := { (default : Payment) with transaction := "txB" } }

/-- A concrete order used in witnesses. -/
def orderC : Order :=
  { (default : Order) with
      order_uid := "uidC"
      payment := { (default : Payment) with transaction := "txC" } }

/-- A concrete order sharing `orderA`'s payment transaction id but with
its own `order_uid`. -/
def orderSharedTx : Order :=
  { (default : Order) with
      order_uid := "uidD"
      payment := { (default : Payment) with transaction := "txA" } }

/-- A concrete order carrying one item, used in witnesses. -/
def orderWithItem : Order :=
  { (default : Order) with
      order_uid := "uidE"
      payment := { (default : Payment) with transaction := "txE" }
      items := [{ (default : Item) with name := "thing", price := 5 }] }

lemma drainLoop_all_ok {E : Type} (save : Nat → Order → Option E) :
    ∀ (q : List Order) (i : Nat),
      (∀ j, j < q.length → save (i + j) (q.getD j default) = none) →
      drainLoop save i q = ⟨[], q, none⟩ := by
  intro q
  induction q with
  | nil => intro i _; rfl
  | cons o rest ih =>
    intro i h
    have h0 : save i o = none := by
      have := h 0 (by simp)
      simpa using this
    have hrest : ∀ j, j < rest.length → save (i + 1 + j) (rest.getD j default) = none := by
      intro j hj
      have := h (j + 1) (by simpa using Nat.succ_lt_succ hj)
      simpa [Nat.add_assoc, Nat.add_comm 1 j] using this
    simp [drainLoop, h0, ih (i + 1) hrest]

lemma drainLoop_fail_at {E : Type} (save : Nat → Order → Option E) (e : E) :
    ∀ (q : List Order) (i k : Nat), k < q.length →
      (∀ j, j < k → save (i + j) (q.getD j default) = none) →
      save (i + k) (q.getD k default) = some e →
      drainLoop save i q = ⟨q.drop (k + 1), q.take (k + 1), some e⟩ := by
  intro q
  induction q with
  | nil => intro i k hk; simp at hk
  | cons o rest ih =>
    intro i k hk hok hfail
    cases k with
    | zero =>
      have h0 : save i o = some e := by simpa using hfail
      simp [drainLoop, h0]
    | succ m =>
      have h0 : save i o = none := by
        have := hok 0 (Nat.succ_pos m)
        simpa using this
      have hok2 : ∀ j, j < m → save (i + 1 + j) (rest.getD j default) = none := by
        intro j hj
        have := hok (j + 1) (Nat.succ_lt_succ hj)
        simpa [Nat.add_assoc, Nat.add_comm 1 j] using this
      have hfail2 : save (i + 1 + m) (rest.getD m default) = some e := by
        simpa [Nat.add_assoc, Nat.add_comm 1 m] using hfail
      have hk2 : m < rest.length := Nat.lt_of_succ_lt_succ hk
      simp [drainLoop, h0, ih (i + 1) m hk2 hok2 hfail2]

lemma drainLoop_queue_length_le {E : Type} (save : Nat → Order → Option E) :
    ∀ (q : List Order) (i : Nat),
      (drainLoop save i q).last_orders.length ≤ q.length := by
  intro q
  induction q with
  | nil => intro i; simp [drainLoop]
  | cons o rest ih =>
    intro i
    cases h : save i o with
    | some e => simp [drainLoop, h]
    | none =>
      simp only [drainLoop, h]
      exact Nat.le_succ_of_le (ih (i + 1))

lemma drainLoop_err_none {E : Type} (save : Nat → Order → Option E) :
    ∀ (q : List Order) (i : Nat), (drainLoop save i q).err = none →
      (drainLoop save i q).last_orders = [] := by
  intro q
  induction q with
  | nil => intro i _; rfl
  | cons o rest ih =>
    intro i h
    cases hs : save i o with
    | some e => simp [drainLoop, hs] at h
    | none =>
      simp only [drainLoop, hs] at h ⊢
      exact ih (i + 1) h

lemma add_order_of_lt {E : Type} (save : Nat → Order → Option E)
    (C : Nat) (q : List Order) (o : Order) (h : q.length < C) :
    add_order save C q o = ⟨q ++ [o], [], none⟩ := by
  unfold add_order
  rw [if_neg (Nat.not_le.mpr h)]

lemma add_order_length_le {E : Type} (save : Nat → Order → Option E)
    (C : Nat) (q : List Order) (o : Order) (hC : 1 ≤ C) (hq : q.length ≤ C) :
    (add_order save C q o).last_orders.length ≤ C := by
  unfold add_order
  by_cases h : C ≤ q.length
  · rw [if_pos h]
    cases he : (drainLoop save 0 q).err with
    | some e =>
      simp only [he]
      exact le_trans (drainLoop_queue_length_le save q 0) hq
    | none =>
      simp only [he]
      have : (drainLoop save 0 q).last_orders = [] :=
        drainLoop_err_none save q 0 he
      simp [this, hC]
  · rw [if_neg h]
    have hlt : q.length < C := Nat.lt_of_not_le h
    simpa using hlt

lemma runAdds_length_le {E : Type} (C : Nat) (hC : 1 ≤ C) :
    ∀ (steps : List ((Nat → Order → Option E) × Order)) (q : List Order),
      q.length ≤ C → (runAdds C steps q).length ≤ C := by
  intro steps
  induction steps with
  | nil => intro q hq; simpa [runAdds] using hq
  | cons s rest ih =>
    intro q hq
    exact ih _ (add_order_length_le s.1 C q s.2 hC hq)

lemma drainLoop_calls_ne_nil {E : Type} (save : Nat → Order → Option E)
    (o : Order) (rest : List Order) (i : Nat) :
    (drainLoop save i (o :: rest)).calls ≠ [] := by
  cases h : save i o <;> simp [drainLoop, h]

lemma add_order_calls_of_ge {E : Type} (save : Nat → Order → Option E)
    (C : Nat) (q : List Order) (o : Order) (h : C ≤ q.length) :
    (add_order save C q o).calls = (drainLoop save 0 q).calls := by
  unfold add_order
  rw [if_pos h]
  cases he : (drainLoop save 0 q).err <;> simp [he]

/-- C1: when a full buffer's drain fails on the element at 0-based
position `k` (Save succeeding on every earlier position), the elements
up to and including position `k` have been popped — Save was invoked on
exactly those, oldest first — the later elements remain in their
original order, the incoming order is not appended, and the call
returns that persistence error. -/
theorem C1_drain_failure_remove_then_persist {E : Type}
    (save : Nat → Order → Option E) (C : Nat) (q : List Order) (o : Order)
    (k : Nat) (e : E) (_hC : 1 ≤ C) (hfull : C ≤ q.length) (hk : k < q.length)
    (hok : ∀ j, j < k → save j (q.getD j default) = none)
    (hfail : save k (q.getD k default) = some e) :
    add_order save C q o = ⟨q.drop (k + 1), q.take (k + 1), some e⟩ := by
  have hd : drainLoop save 0 q = ⟨q.drop (k + 1), q.take (k + 1), some e⟩ := by
    apply drainLoop_fail_at save e q 0 k hk
    · intro j hj
      simpa using hok j hj
    · simpa using hfail
  unfold add_order
  rw [if_pos hfull]
  simp only [hd]

/-- Witness for C1, the spec's Scenario C: capacity 1, buffer [A],
Add(B) drains A, Save(A) fails, so the buffer ends empty, Save was
called on A only, B is not appended, and the error is returned. -/
theorem C1_drain_failure_remove_then_persist_witness :
    add_order (fun _ _ => (some 7 : Option Nat)) 1 [orderA] orderB
      = ⟨[], [orderA], some 7⟩ := by
  have h := C1_drain_failure_remove_then_persist
    (fun _ _ => (some 7 : Option Nat)) 1 [orderA] orderB 0 7
    (Nat.le_refl 1) (by simp) (by simp)
    (fun j hj => absurd hj (Nat.not_lt_zero j)) rfl
  exact h

/-- C2: starting from the empty buffer, after any sequence of completed
`add_order` calls (each with an arbitrary Save oracle, succeeding or
failing), the queue length is at most the capacity. Quantifying over
all sequences covers every intermediate state, each being the result of
a prefix. -/
theorem C2_capacity_invariant {E : Type} (C : Nat) (hC : 1 ≤ C)
    (steps : List ((Nat → Order → Option E) × Order)) :
    (runAdds C steps []).length ≤ C :=
  runAdds_length_le C hC steps [] (by simp)

/-- Witness for C2 at capacity 2 with three successful adds. -/
theorem C2_capacity_invariant_witness :
    (runAdds 2 [(fun _ _ => (none : Option Nat), orderA),
                (fun _ _ => (none : Option Nat), orderB),
                (fun _ _ => (none : Option Nat), orderC)] []).length ≤ 2 :=
  C2_capacity_invariant 2 (by decide) _

/-- C3: `add_order` drains exactly when the starting length has reached
the capacity: below capacity no Save call is made and the order is
appended; at or above capacity, if every Save succeeds, Save is invoked
on exactly the buffered elements oldest first (the call trace is the
queue itself) and the buffer afterwards holds only the new order. -/
theorem C3_flush_condition_and_fifo {E : Type} (save : Nat → Order → Option E)
    (C : Nat) (q : List Order) (o : Order) :
    (q.length < C → add_order save C q o = ⟨q ++ [o], [], none⟩) ∧
    (C ≤ q.length → (∀ j, j < q.length → save j (q.getD j default) = none) →
      add_order save C q o = ⟨[o], q, none⟩) := by
  constructor
  · intro h
    exact add_order_of_lt save C q o h
  · intro h hok
    have hd : drainLoop save 0 q = ⟨[], q, none⟩ := by
      apply drainLoop_all_ok
      intro j hj
      simpa using hok j hj
    unfold add_order
    rw [if_pos h]
    simp [hd]

/-- Witness for C3, the spec's Scenario A: capacity 2, Add(B) on [A]
appends with no Save call; Add(C) on [A, B] drains A then B and leaves
[C]. -/
theorem C3_flush_condition_and_fifo_witness :
    add_order (fun _ _ => (none : Option Nat)) 2 [orderA] orderB
        = ⟨[orderA, orderB], [], none⟩ ∧
    add_order (fun _ _ => (none : Option Nat)) 2 [orderA, orderB] orderC
        = ⟨[orderC], [orderA, orderB], none⟩ := by
  constructor
  · exact (C3_flush_condition_and_fifo (fun _ _ => (none : Option Nat))
      2 [orderA] orderB).1 (by simp)
  · exact (C3_flush_condition_and_fifo (fun _ _ => (none : Option Nat))
      2 [orderA, orderB] orderC).2 (by simp) (fun j hj => rfl)

/-- C6 fails as stated: with capacity 1, a single successful Add on the
empty buffer leaves one resident order on which Save was never invoked
(the call trace is empty), exceeding the claimed bound of C - 1 = 0
unpersisted resident orders. -/
theorem C6_counterexample_unpersisted_bound :
    add_order (fun _ _ => (none : Option Nat)) 1 [] orderA
        = ⟨[orderA], [], none⟩ ∧
    ¬ (([orderA] : List Order).length ≤ 1 - 1) := by
  exact ⟨rfl, by decide⟩

/-- C6 amended: at most C (not C - 1) orders are resident unpersisted —
after any sequence of Adds from empty the queue length is at most C —
and the drain always runs before a (C+1)-th order would be admitted: any
Add starting at length ≥ C invokes Save at least once. -/
theorem C6_amended_resident_bound {E : Type} (C : Nat) (hC : 1 ≤ C)
    (steps : List ((Nat → Order → Option E) × Order))
    (save : Nat → Order → Option E) (q : List Order) (o : Order)
    (hq : C ≤ q.length) :
    (runAdds C steps []).length ≤ C ∧ (add_order save C q o).calls ≠ [] := by
  constructor
  · exact runAdds_length_le C hC steps [] (by simp)
  · rw [add_order_calls_of_ge save C q o hq]
    match q, hq with
    | x :: rest, _ => exact drainLoop_calls_ne_nil save x rest 0
    | [], hq => exact absurd (Nat.le_trans hC hq) (by simp)

/-- Witness for the amended C6 at capacity 1. -/
theorem C6_amended_resident_bound_witness :
    (runAdds 1 [(fun _ _ => (none : Option Nat), orderA)] []).length ≤ 1 ∧
    (add_order (fun _ _ => (none : Option Nat)) 1 [orderA] orderB).calls ≠ [] :=
  C6_amended_resident_bound 1 (Nat.le_refl 1) _ _ [orderA] orderB (by simp)

/-- C7: constructing with capacity 0 hits the
`panic!("Cache size can't be zero")` branch and produces no usable
instance; any positive capacity yields an empty buffer with that
capacity. -/
theorem C7_construction_capacity_check (c : Nat) :
    AppState.new 0 = none ∧ (0 < c → AppState.new c = some ⟨[], c⟩) := by
  constructor
  · rfl
  · intro h
    unfold AppState.new
    rw [if_neg (Nat.pos_iff_ne_zero.mp h)]

/-- Witness for C7 at capacities 0 and 3. -/
theorem C7_construction_capacity_check_witness :
    AppState.new 0 = none ∧ AppState.new 3 = some ⟨[], 3⟩ :=
  ⟨(C7_construction_capacity_check 3).1,
   (C7_construction_capacity_check 3).2 (by decide)⟩

/-- C8: `get_last_order` returns none on the empty buffer, and after
any `add_order` that returned success the back of the queue is the
order just added (read freshness round-trip); being a pure function of
the queue, it makes no Save call. -/
theorem C8_peek_last_freshness {E : Type} (save : Nat → Order → Option E)
    (C : Nat) (q : List Order) (o : Order) :
    get_last_order [] = none ∧
    ((add_order save C q o).err = none →
      get_last_order (add_order save C q o).last_orders = some o) := by
  refine ⟨rfl, ?_⟩
  intro h
  unfold add_order at h ⊢
  by_cases hc : C ≤ q.length
  · rw [if_pos hc] at h ⊢
    cases he : (drainLoop save 0 q).err with
    | some e => simp [he] at h
    | none =>
      simp only [he]
      simp [get_last_order]
  · rw [if_neg hc] at h ⊢
    simp [get_last_order]

/-- Witness for C8: empty read, and freshness after a successful Add on
a full buffer of capacity 1. -/
theorem C8_peek_last_freshness_witness :
    get_last_order [] = none ∧
    get_last_order (add_order (fun _ _ => (none : Option Nat)) 1 [orderA]
      orderB).last_orders = some orderB :=
  ⟨(C8_peek_last_freshness (fun _ _ => (none : Option Nat)) 1 [orderA] orderB).1,
   (C8_peek_last_freshness (fun _ _ => (none : Option Nat)) 1 [orderA] orderB).2 rfl⟩

lemma insertItemsLoop_all_ok (connFail : Nat → Bool) (uid : String) :
    ∀ (items : List Item) (i : Nat) (db : Db),
      (∀ j, j < items.length → connFail (i + j) = false) →
      insertItemsLoop connFail uid i db items
        = ({ db with items := db.items ++ items.map (itemsRowOf uid) }, none) := by
  intro items
  induction items with
  | nil =>
    intro i db _
    simp [insertItemsLoop]
  | cons it rest ih =>
    intro i db h
    have h0 : connFail i = false := by
      simpa using h 0 (by simp)
    have hrest : ∀ j, j < rest.length → connFail (i + 1 + j) = false := by
      intro j hj
      have := h (j + 1) (by simpa using Nat.succ_lt_succ hj)
      simpa [Nat.add_assoc, Nat.add_comm 1 j] using this
    simp only [insertItemsLoop, execCall, h0, Bool.false_eq_true, if_false,
      Db.insertItems]
    rw [ih (i + 1) _ hrest]
    simp [List.append_assoc]

lemma insertItemsLoop_fail_at (connFail : Nat → Bool) (uid : String) :
    ∀ (items : List Item) (j i : Nat) (db : Db), j < items.length →
      (∀ m, m < j → connFail (i + m) = false) → connFail (i + j) = true →
      insertItemsLoop connFail uid i db items
        = ({ db with items := db.items ++ (items.take j).map (itemsRowOf uid) },
           some SqlError.connection) := by
  intro items
  induction items with
  | nil => intro j i db hj; simp at hj
  | cons it rest ih =>
    intro j i db hj hok hfail
    cases j with
    | zero =>
      have h0 : connFail i = true := by simpa using hfail
      simp [insertItemsLoop, execCall, h0]
    | succ m =>
      have h0 : connFail i = false := by
        simpa using hok 0 (Nat.succ_pos m)
      have hok2 : ∀ n, n < m → connFail (i + 1 + n) = false := by
        intro n hn
        have := hok (n + 1) (Nat.succ_lt_succ hn)
        simpa [Nat.add_assoc, Nat.add_comm 1 n] using this
      have hfail2 : connFail (i + 1 + m) = true := by
        simpa [Nat.add_assoc, Nat.add_comm 1 m] using hfail
      have hm : m < rest.length := Nat.lt_of_succ_lt_succ hj
      simp only [insertItemsLoop, execCall, h0, Bool.false_eq_true, if_false,
        Db.insertItems]
      rw [ih m (i + 1) _ hm hok2 hfail2]
      simp [List.append_assoc]

lemma execCall_orders_ok (connFail : Nat → Bool) (db : Db) (o : Order)
    (hf : connFail 0 = false)
    (hu : (db.orders.any fun x => x.order_uid == o.order_uid) = false) :
    execCall connFail 0 (fun d => d.insertOrders (ordersRowOf o)) db
      = (dbAfterOrders o db, none) := by
  simp [execCall, hf, Db.insertOrders, ordersRowOf, hu, dbAfterOrders]

lemma execCall_deliveries_ok (connFail : Nat → Bool) (db : Db) (o : Order)
    (hf : connFail 1 = false) :
    execCall connFail 1 (fun d => d.insertDeliveries (deliveriesRowOf o))
        (dbAfterOrders o db)
      = (dbAfterDeliveries o db, none) := by
  simp [execCall, hf, Db.insertDeliveries, dbAfterOrders, dbAfterDeliveries]

lemma execCall_payments_ok (connFail : Nat → Bool) (db : Db) (o : Order)
    (hf : connFail 2 = false)
    (hp : (db.payments.any fun x => x.transaction_id == o.payment.transaction)
      = false) :
    execCall connFail 2 (fun d => d.insertPayments (paymentsRowOf o))
        (dbAfterDeliveries o db)
      = (dbAfterPayments o db, none) := by
  simp [execCall, hf, Db.insertPayments, paymentsRowOf, dbAfterOrders,
    dbAfterDeliveries, dbAfterPayments, hp]

/-- C5: `save_to_db` performs its four insert steps in the fixed order
orders, deliveries, payments, items (one row per item in sequence
order), each as a separate round-trip with no enclosing transaction: a
connectivity failure at a step returns that first error with exactly
the earlier steps committed in the store and the later ones not
applied, and when every round-trip succeeds all four steps are
committed. -/
theorem C5_save_fixed_order_no_transaction (connFail : Nat → Bool) (db : Db)
    (o : Order)
    (hu : (db.orders.any fun x => x.order_uid == o.order_uid) = false)
    (hp : (db.payments.any fun x => x.transaction_id == o.payment.transaction)
      = false) :
    (connFail 0 = true →
      save_to_db connFail db o = (db, some SqlError.connection)) ∧
    (connFail 0 = false → connFail 1 = true →
      save_to_db connFail db o = (dbAfterOrders o db, some SqlError.connection)) ∧
    (connFail 0 = false → connFail 1 = false → connFail 2 = true →
      save_to_db connFail db o
        = (dbAfterDeliveries o db, some SqlError.connection)) ∧
    (connFail 0 = false → connFail 1 = false → connFail 2 = false →
      ∀ j, j < o.items.length → (∀ m, m < j → connFail (3 + m) = false) →
        connFail (3 + j) = true →
        save_to_db connFail db o
          = ({ dbAfterPayments o db with
                items := db.items ++ (o.items.take j).map (itemsRowOf o.order_uid) },
             some SqlError.connection)) ∧
    (connFail 0 = false → connFail 1 = false → connFail 2 = false →
      (∀ j, j < o.items.length → connFail (3 + j) = false) →
      save_to_db connFail db o
        = ({ dbAfterPayments o db with
              items := db.items ++ o.items.map (itemsRowOf o.order_uid) },
           none)) := by
  refine ⟨?_, ?_, ?_, ?_, ?_⟩
  · intro h0
    simp [save_to_db, execCall, h0]
  · intro h0 h1
    simp only [save_to_db, execCall_orders_ok connFail db o h0 hu]
    simp [execCall, h1]
  · intro h0 h1 h2
    simp only [save_to_db, execCall_orders_ok connFail db o h0 hu,
      execCall_deliveries_ok connFail db o h1]
    simp [execCall, h2]
  · intro h0 h1 h2 j hj hok hfail
    simp only [save_to_db, execCall_orders_ok connFail db o h0 hu,
      execCall_deliveries_ok connFail db o h1,
      execCall_payments_ok connFail db o h2 hp,
      insertItemsLoop_fail_at connFail o.order_uid o.items j 3
        (dbAfterPayments o db) hj hok hfail]
    rfl
  · intro h0 h1 h2 hall
    simp only [save_to_db, execCall_orders_ok connFail db o h0 hu,
      execCall_deliveries_ok connFail db o h1,
      execCall_payments_ok connFail db o h2 hp,
      insertItemsLoop_all_ok connFail o.order_uid o.items 3
        (dbAfterPayments o db) hall]
    rfl

/-- Witness for C5: a fully successful Save of an order with one item
on the empty store commits all four relations. -/
theorem C5_save_fixed_order_no_transaction_witness :
    save_to_db (fun _ => false) Db.empty orderWithItem
      = ({ dbAfterPayments orderWithItem Db.empty with
            items := Db.empty.items
              ++ orderWithItem.items.map (itemsRowOf orderWithItem.order_uid) },
         none) :=
  (C5_save_fixed_order_no_transaction (fun _ => false) Db.empty orderWithItem
    rfl rfl).2.2.2.2 rfl rfl rfl (fun _ _ => rfl)

/-- C10: an order whose items list is empty makes zero inserts into the
items relation — the store's items are unchanged — and Save succeeds
whenever the orders, deliveries and payments round-trips succeed. -/
theorem C10_empty_items_save_succeeds (connFail : Nat → Bool) (db : Db)
    (o : Order) (hitems : o.items = [])
    (h0 : connFail 0 = false) (h1 : connFail 1 = false)
    (h2 : connFail 2 = false)
    (hu : (db.orders.any fun x => x.order_uid == o.order_uid) = false)
    (hp : (db.payments.any fun x => x.transaction_id == o.payment.transaction)
      = false) :
    save_to_db connFail db o = (dbAfterPayments o db, none) := by
  simp only [save_to_db, execCall_orders_ok connFail db o h0 hu,
    execCall_deliveries_ok connFail db o h1,
    execCall_payments_ok connFail db o h2 hp, hitems]
  rfl

/-- Witness for C10: saving `orderB` (no items) on the empty store. -/
theorem C10_empty_items_save_succeeds_witness :
    save_to_db (fun _ => false) Db.empty orderB
      = (dbAfterPayments orderB Db.empty, none) :=
  C10_empty_items_save_succeeds (fun _ => false) Db.empty orderB rfl rfl rfl
    rfl rfl rfl

/-- C4 fails on src/state.rs: its `save_to_db` payments INSERT carries
no ON CONFLICT clause, so with `payments` keyed by `transaction_id`,
saving a second order that shares the first order's payment transaction
returns a unique-violation error (its orders and deliveries rows are
committed, its items are not), whereas the inline drain of src/main.rs
— whose payments INSERT ends in ON CONFLICT(transaction_id) DO NOTHING
— saves both orders without error and leaves exactly one payments row
for the shared transaction id. -/
theorem C4_payments_conflict_divergence :
    (save_to_db (fun _ => false) Db.empty orderA).2 = none ∧
    (save_to_db (fun _ => false)
        (save_to_db (fun _ => false) Db.empty orderA).1 orderSharedTx).2
      = some SqlError.uniqueViolation ∧
    (save_to_db_main (fun _ => false)
        (save_to_db_main (fun _ => false) Db.empty orderA).1 orderSharedTx).2
      = none ∧
    (save_to_db_main (fun _ => false)
        (save_to_db_main (fun _ => false) Db.empty orderA).1
        orderSharedTx).1.payments.length = 1 ∧
    (save_to_db_main (fun _ => false)
        (save_to_db_main (fun _ => false) Db.empty orderA).1
        orderSharedTx).1.orders.length = 2 ∧
    (save_to_db_main (fun _ => false)
        (save_to_db_main (fun _ => false) Db.empty orderA).1
        orderSharedTx).1.deliveries.length = 2 :=
  ⟨rfl, rfl, rfl, rfl, rfl, rfl⟩

end Wb
